import Mathlib

/-!
Verification of the HTTP request ingestion core of the pion library
(`src/src/HTTPRequestParser.cpp`), as a shallow embedding in Lean 4.

Octets are modelled as `Nat` values (0..255); C++ `std::string` scratch
buffers and committed fields are modelled as `List Nat`; the header
dictionary and the query-parameter dictionary are modelled as lists of
(name, value) pairs in insertion order.
-/

namespace Pion

/-! ## Byte classifiers

Modelled from the spec: the predicates `is_char`, `is_control`, `is_digit`
and `is_special` are declared in `HTTPRequestParser.hpp`, which is not part
of the provided sources; their definitions follow spec section 4.1. -/

def isChar (x : Nat) : Bool := x ≤ 127

def isControl (x : Nat) : Bool := x ≤ 31 || x == 127

def isDigit (x : Nat) : Bool := 48 ≤ x && x ≤ 57

/-- `( ) < > @ , ; : \ " / [ ] ? = lbrace rbrace SP HT` -/
def isSpecial (x : Nat) : Bool :=
  x == 40 || x == 41 || x == 60 || x == 62 || x == 64 ||
  x == 44 || x == 59 || x == 58 || x == 92 || x == 34 ||
  x == 47 || x == 91 || x == 93 || x == 63 || x == 61 ||
  x == 123 || x == 125 || x == 32 || x == 9

/-! ## Size ceilings (static constants of HTTPRequestParser) -/

def METHOD_MAX : Nat := 1024
def RESOURCE_MAX : Nat := 256 * 1024
def QUERY_STRING_MAX : Nat := 1024 * 1024
def HEADER_NAME_MAX : Nat := 1024
def HEADER_VALUE_MAX : Nat := 1024 * 1024
def QUERY_NAME_MAX : Nat := 1024
def QUERY_VALUE_MAX : Nat := 1024 * 1024
def POST_CONTENT_MAX : Nat := 1024 * 1024

/-! ## RequestMessage

Modelled from the spec: the `HTTPRequest` container class is not part of the
provided sources; fields follow spec section 3.  `headers` and
`query_params` are insertion-ordered lists of pairs with duplicates
allowed; `addHeader` and dictionary `insert` append at the end. -/

structure HTTPRequest where
  method : List Nat := []
  resource : List Nat := []
  query_string : List Nat := []
  version_major : Nat := 0
  version_minor : Nat := 0
  headers : List (List Nat × List Nat) := []
  query_params : List (List Nat × List Nat) := []
  content_length : Nat := 0
  post_content : List Nat := []
  is_valid : Bool := false
deriving Repr, DecidableEq

def setMethod (r : HTTPRequest) (m : List Nat) : HTTPRequest := { r with method := m }

def setResource (r : HTTPRequest) (x : List Nat) : HTTPRequest := { r with resource := x }

def setQueryString (r : HTTPRequest) (q : List Nat) : HTTPRequest := { r with query_string := q }

def setVersionMajor (r : HTTPRequest) (n : Nat) : HTTPRequest := { r with version_major := n }

def setVersionMinor (r : HTTPRequest) (n : Nat) : HTTPRequest := { r with version_minor := n }

def addHeader (r : HTTPRequest) (n v : List Nat) : HTTPRequest :=
  { r with headers := r.headers ++ [(n, v)] }

def setIsValid (r : HTTPRequest) (v : Bool) : HTTPRequest := { r with is_valid := v }

/-! ## Header state machine -/

/-- The values of `m_parse_state` (`ParseState` enum in the source). -/
inductive ParseState where
  | methodStart | methodTok | uriStem | uriQuery
  | versionH | versionT1 | versionT2 | versionP | versionSlash
  | versionMajorStart | versionMajor | versionMinorStart | versionMinor
  | expectingNewline | expectingCR
  | headerWhitespace | headerStart | headerName | spaceBeforeHeaderValue | headerValue
  | expectingFinalNewline | expectingFinalCR
deriving Repr, DecidableEq

/-- The parser's persistent per-request state: `m_parse_state`, the scratch
strings, and the request object being populated. -/
structure ParserState where
  parse_state : ParseState := .methodStart
  m_method : List Nat := []
  m_resource : List Nat := []
  m_query_string : List Nat := []
  m_header_name : List Nat := []
  m_header_value : List Nat := []
  request : HTTPRequest := {}
deriving Repr, DecidableEq

def initState : ParserState := {}

/-- What one iteration of the `while (ptr < end)` loop in
`parseRequestHeaders` does with the byte under `ptr`:
continue with the next byte (`next`, the `++ptr` at the bottom of the
loop), `return true` just after a `++ptr` (`acceptConsume`), `return true`
without advancing (`acceptKeep`), or `return false` (`reject`). -/
inductive StepResult where
  | next (s : ParserState)
  | acceptConsume (s : ParserState)
  | acceptKeep (s : ParserState)
  | reject (s : ParserState)
deriving Repr, DecidableEq

/-- One iteration of the switch in `HTTPRequestParser::parseRequestHeaders`
(src/src/HTTPRequestParser.cpp lines 193-462) on byte `c`. -/
def step (s : ParserState) (c : Nat) : StepResult :=
  match s.parse_state with
  | .methodStart =>
      if !isChar c || isControl c || isSpecial c then .reject s
      else .next { s with parse_state := .methodTok, m_method := [c] }
  | .methodTok =>
      if c == 32 then
        .next { s with request := setMethod s.request s.m_method,
                       m_resource := [], parse_state := .uriStem }
      else if !isChar c || isControl c || isSpecial c then .reject s
      else if s.m_method.length ≥ METHOD_MAX then .reject s
      else .next { s with m_method := s.m_method ++ [c] }
  | .uriStem =>
      if c == 32 then
        .next { s with request := setResource s.request s.m_resource,
                       parse_state := .versionH }
      else if c == 63 then
        .next { s with request := setResource s.request s.m_resource,
                       m_query_string := [], parse_state := .uriQuery }
      else if isControl c then .reject s
      else if s.m_resource.length ≥ RESOURCE_MAX then .reject s
      else .next { s with m_resource := s.m_resource ++ [c] }
  | .uriQuery =>
      if c == 32 then
        .next { s with request := setQueryString s.request s.m_query_string,
                       parse_state := .versionH }
      else if isControl c then .reject s
      else if s.m_query_string.length ≥ QUERY_STRING_MAX then .reject s
      else .next { s with m_query_string := s.m_query_string ++ [c] }
  | .versionH =>
      if c == 72 then .next { s with parse_state := .versionT1 } else .reject s
  | .versionT1 =>
      if c == 84 then .next { s with parse_state := .versionT2 } else .reject s
  | .versionT2 =>
      if c == 84 then .next { s with parse_state := .versionP } else .reject s
  | .versionP =>
      if c == 80 then .next { s with parse_state := .versionSlash } else .reject s
  | .versionSlash =>
      if c == 47 then .next { s with parse_state := .versionMajorStart } else .reject s
  | .versionMajorStart =>
      if !isDigit c then .reject s
      else .next { s with request := setVersionMajor s.request (c - 48),
                          parse_state := .versionMajor }
  | .versionMajor =>
      if c == 46 then .next { s with parse_state := .versionMinorStart }
      else if isDigit c then
        .next { s with request := setVersionMajor s.request (s.request.version_major * 10 + (c - 48)) }
      else .reject s
  | .versionMinorStart =>
      if !isDigit c then .reject s
      else .next { s with request := setVersionMinor s.request (c - 48),
                          parse_state := .versionMinor }
  | .versionMinor =>
      if c == 13 then .next { s with parse_state := .expectingNewline }
      else if c == 10 then .next { s with parse_state := .expectingCR }
      else if isDigit c then
        .next { s with request := setVersionMinor s.request (s.request.version_minor * 10 + (c - 48)) }
      else .reject s
  | .expectingNewline =>
      if c == 10 then .next { s with parse_state := .headerStart }
      else if c == 13 then .acceptConsume s
      else if c == 9 || c == 32 then .next { s with parse_state := .headerWhitespace }
      else if !isChar c || isControl c || isSpecial c then .reject s
      else .next { s with m_header_name := [c], parse_state := .headerName }
  | .expectingCR =>
      if c == 13 then .next { s with parse_state := .headerStart }
      else if c == 10 then .acceptConsume s
      else if c == 9 || c == 32 then .next { s with parse_state := .headerWhitespace }
      else if !isChar c || isControl c || isSpecial c then .reject s
      else .next { s with m_header_name := [c], parse_state := .headerName }
  | .headerWhitespace =>
      if c == 13 then .next { s with parse_state := .expectingNewline }
      else if c == 10 then .next { s with parse_state := .expectingCR }
      else if c != 9 && c != 32 then
        if !isChar c || isControl c || isSpecial c then .reject s
        else .next { s with m_header_name := [c], parse_state := .headerName }
      else .next s
  | .headerStart =>
      if c == 13 then .next { s with parse_state := .expectingFinalNewline }
      else if c == 10 then .next { s with parse_state := .expectingFinalCR }
      else if c == 9 || c == 32 then .next { s with parse_state := .headerWhitespace }
      else if !isChar c || isControl c || isSpecial c then .reject s
      else .next { s with m_header_name := [c], parse_state := .headerName }
  | .headerName =>
      if c == 58 then
        .next { s with m_header_value := [], parse_state := .spaceBeforeHeaderValue }
      else if !isChar c || isControl c || isSpecial c then .reject s
      else if s.m_header_name.length ≥ HEADER_NAME_MAX then .reject s
      else .next { s with m_header_name := s.m_header_name ++ [c] }
  | .spaceBeforeHeaderValue =>
      if c == 32 then .next { s with parse_state := .headerValue }
      else if c == 13 then
        .next { s with request := addHeader s.request s.m_header_name s.m_header_value,
                       parse_state := .expectingNewline }
      else if c == 10 then
        .next { s with request := addHeader s.request s.m_header_name s.m_header_value,
                       parse_state := .expectingCR }
      else if !isChar c || isControl c || isSpecial c then .reject s
      else .next { s with m_header_value := s.m_header_value ++ [c],
                          parse_state := .headerValue }
  | .headerValue =>
      if c == 13 then
        .next { s with request := addHeader s.request s.m_header_name s.m_header_value,
                       parse_state := .expectingNewline }
      else if c == 10 then
        .next { s with request := addHeader s.request s.m_header_name s.m_header_value,
                       parse_state := .expectingCR }
      else if isControl c then .reject s
      else if s.m_header_value.length ≥ HEADER_VALUE_MAX then .reject s
      else .next { s with m_header_value := s.m_header_value ++ [c] }
  | .expectingFinalNewline =>
      if c == 10 then .acceptConsume s else .acceptKeep s
  | .expectingFinalCR =>
      if c == 13 then .acceptConsume s else .acceptKeep s

/-- Outcome of one `parseRequestHeaders` call: `accept` (returned `true`),
`reject` (returned `false`), `needMore` (returned `boost::indeterminate`). -/
inductive Outcome where
  | accept | reject | needMore
deriving Repr, DecidableEq

/-- Result of one `parseRequestHeaders` call: the tribool outcome, the
parser state left behind, and how far `ptr` advanced (consumed octets). -/
structure FeedResult where
  outcome : Outcome
  state : ParserState
  consumed : Nat
deriving Repr, DecidableEq

/-- `HTTPRequestParser::parseRequestHeaders(ptr, len)`: the while loop over
the buffer, resumable because `s` carries all persistent members. -/
def feed : ParserState → List Nat → FeedResult
  | s, [] => ⟨.needMore, s, 0⟩
  | s, c :: rest =>
    match step s c with
    | .next s' =>
        let r := feed s' rest
        ⟨r.outcome, r.state, r.consumed + 1⟩
    | .acceptConsume s' => ⟨.accept, s', 1⟩
    | .acceptKeep s' => ⟨.accept, s', 0⟩
    | .reject s' => ⟨.reject, s', 0⟩

/-- Feeding a sequence of buffers to one persistent machine, as the read
loop in `readHeaderBytes` does: while the outcome is `needMore` the next
read's bytes are parsed with the same state; consumed counts add up. -/
def feedMulti : ParserState → List (List Nat) → FeedResult
  | s, [] => ⟨.needMore, s, 0⟩
  | s, chunk :: rest =>
    match feed s chunk with
    | ⟨.needMore, s', n⟩ =>
        let r := feedMulti s' rest
        ⟨r.outcome, r.state, n + r.consumed⟩
    | r => r

/-! ## Basic lemmas about `feed` -/

theorem feed_append_needMore (b : List Nat) : ∀ (a : List Nat) (s s' : ParserState) (n : Nat),
    feed s a = ⟨.needMore, s', n⟩ →
    feed s (a ++ b) = ⟨(feed s' b).outcome, (feed s' b).state, n + (feed s' b).consumed⟩ := by
  intro a
  induction a with
  | nil =>
    intro s s' n h
    simp only [feed] at h
    obtain ⟨h1, h2⟩ := (FeedResult.mk.injEq _ _ _ _ _ _).mp h |>.2
    subst h1; subst h2
    simp [List.nil_append]
  | cons c t ih =>
    intro s s' n h
    rw [List.cons_append]
    cases hstep : step s c with
    | next s1 =>
      rcases hft : feed s1 t with ⟨o, st, m⟩
      simp only [feed, hstep, hft] at h ⊢
      obtain ⟨ho, hst, hm⟩ := (FeedResult.mk.injEq _ _ _ _ _ _).mp h
      subst hst
      subst hm
      subst ho
      rw [ih s1 st m hft]
      rcases hfb : feed st b with ⟨o2, s2, k⟩
      simp only [FeedResult.mk.injEq]
      exact ⟨trivial, trivial, by omega⟩
    | acceptConsume s1 => simp only [feed, hstep] at h; simp at h
    | acceptKeep s1 => simp only [feed, hstep] at h; simp at h
    | reject s1 => simp only [feed, hstep] at h; simp at h

theorem feed_append_done (b : List Nat) : ∀ (a : List Nat) (s : ParserState),
    (feed s a).outcome ≠ .needMore → feed s (a ++ b) = feed s a := by
  intro a
  induction a with
  | nil => intro s h; simp [feed] at h
  | cons c t ih =>
    intro s h
    rw [List.cons_append]
    cases hstep : step s c with
    | next s1 =>
      simp only [feed, hstep] at h ⊢
      rw [ih s1 h]
    | acceptConsume s1 => simp only [feed, hstep]
    | acceptKeep s1 => simp only [feed, hstep]
    | reject s1 => simp only [feed, hstep]

theorem feed_consumed_le : ∀ (a : List Nat) (s : ParserState),
    (feed s a).consumed ≤ a.length := by
  intro a
  induction a with
  | nil => intro s; simp [feed]
  | cons c t ih =>
    intro s
    cases hstep : step s c with
    | next s1 =>
      simp only [feed, hstep, List.length_cons]
      exact Nat.succ_le_succ (ih s1)
    | acceptConsume s1 => simp [feed, hstep]
    | acceptKeep s1 => simp [feed, hstep]
    | reject s1 => simp [feed, hstep]

theorem feedMulti_eq_feed_join : ∀ (parts : List (List Nat)) (s : ParserState),
    feedMulti s parts = feed s parts.flatten := by
  intro parts
  induction parts with
  | nil => intro s; simp [feedMulti, feed, List.flatten]
  | cons chunk rest ih =>
    intro s
    have hjoin : (chunk :: rest).flatten = chunk ++ rest.flatten := by simp [List.flatten]
    rw [hjoin]
    rcases hfc : feed s chunk with ⟨o, st, m⟩
    cases o with
    | needMore =>
      rw [feed_append_needMore rest.flatten chunk s st m hfc]
      simp only [feedMulti, hfc, ih st]
    | accept =>
      rw [feed_append_done rest.flatten chunk s (by rw [hfc]; simp)]
      simp only [feedMulti, hfc]
    | reject =>
      rw [feed_append_done rest.flatten chunk s (by rw [hfc]; simp)]
      simp only [feedMulti, hfc]

theorem flatten_map_singleton (l : List Nat) : (l.map (fun c => [c])).flatten = l := by
  induction l with
  | nil => simp
  | cons c t ih => simp [ih]

/-! ## Claims C1, C2, C8 -/

/-- C1: for every byte sequence, splitting it into any partition and feeding
the parts in order to the resumable header state machine yields the same
outcome, the same count of consumed octets, and the same committed request
fields (the whole `FeedResult`, hence the whole `HTTPRequest`) as feeding
the joined sequence in a single call. -/
theorem parseRequestHeaders_partition_invariant (parts : List (List Nat)) :
    feedMulti initState parts = feed initState parts.flatten :=
  feedMulti_eq_feed_join parts initState

/-- C2: for every byte sequence `P ++ R` accepted by a fresh header machine,
feeding the prefix `P` byte-at-a-time to a fresh machine yields NeedMore or
Accept with consumed count at most the length of `P`, and never Reject. -/
theorem parseRequestHeaders_valid_prefixes_never_reject (B P R : List Nat)
    (hB : B = P ++ R) (hacc : (feed initState B).outcome = .accept) :
    (feedMulti initState (P.map (fun c => [c]))).outcome = .needMore ∨
    ((feedMulti initState (P.map (fun c => [c]))).outcome = .accept ∧
     (feedMulti initState (P.map (fun c => [c]))).consumed ≤ P.length) := by
  rw [feedMulti_eq_feed_join, flatten_map_singleton]
  rcases ho : (feed initState P).outcome with _ | _ | _
  · right
    exact ⟨rfl, feed_consumed_le P initState⟩
  · exfalso
    rw [hB, feed_append_done R P initState (by rw [ho]; simp)] at hacc
    rw [ho] at hacc
    exact Outcome.noConfusion hacc
  · left; rfl

/-- Witness for C2 at the concrete valid request "GET / HTTP/1.1 CRLF
Host: x CRLF CRLF" and its 5-octet prefix "GET /". -/
theorem parseRequestHeaders_valid_prefixes_never_reject_witness :
    (feedMulti initState ([71,69,84,32,47].map (fun c => [c]))).outcome = .needMore ∨
    ((feedMulti initState ([71,69,84,32,47].map (fun c => [c]))).outcome = .accept ∧
     (feedMulti initState ([71,69,84,32,47].map (fun c => [c]))).consumed ≤
       ([71,69,84,32,47] : List Nat).length) :=
  parseRequestHeaders_valid_prefixes_never_reject
    [71,69,84,32,47,32,72,84,84,80,47,49,46,49,13,10,72,111,115,116,58,32,120,13,10,13,10]
    [71,69,84,32,47]
    [32,72,84,84,80,47,49,46,49,13,10,72,111,115,116,58,32,120,13,10,13,10]
    (by decide) (by decide)

/-- The scenario S2 input "GET /a HTTP/1.0 LF Host: y LF LF" (bare-LF line
terminators), as octets. -/
def bareLFInput : List Nat :=
  [71,69,84,32,47,97,32,72,84,84,80,47,49,46,48,10,72,111,115,116,58,32,121,10,10]

/-- C8: feeding the bare-LF request "GET /a HTTP/1.0 LF Host: y LF LF" to a
fresh header machine yields Accept with all 25 octets consumed, method GET,
resource /a, version major 1 and minor 0, exactly one header Host with value
y, and an empty query string. -/
theorem bareLF_request_accepted :
    (feed initState bareLFInput).outcome = .accept ∧
    (feed initState bareLFInput).consumed = bareLFInput.length ∧
    (feed initState bareLFInput).state.request.method = [71,69,84] ∧
    (feed initState bareLFInput).state.request.resource = [47,97] ∧
    (feed initState bareLFInput).state.request.version_major = 1 ∧
    (feed initState bareLFInput).state.request.version_minor = 0 ∧
    (feed initState bareLFInput).state.request.headers = [([72,111,115,116],[121])] ∧
    (feed initState bareLFInput).state.request.query_string = [] := by
  decide

/-! ## FormDecoder: parseURLEncoded -/

/-- The `QueryParseState` enum local to `parseURLEncoded`. -/
inductive QueryParseState where
  | parseName | parseValue
deriving Repr, DecidableEq

/-- The while loop of `HTTPRequestParser::parseURLEncoded`
(src/src/HTTPRequestParser.cpp lines 482-530), followed by the final-pair
commit.  `dict` is passed by reference in the source, so the dictionary as
of a failure is returned alongside the source's `bool` result. -/
def parseURLEncodedLoop : QueryParseState → List (List Nat × List Nat) →
    List Nat → List Nat → List Nat → Bool × List (List Nat × List Nat)
  | _, dict, query_name, query_value, [] =>
      if query_name ≠ [] then (true, dict ++ [(query_name, query_value)]) else (true, dict)
  | .parseName, dict, query_name, query_value, c :: rest =>
      if c == 61 then
        if query_name = [] then (false, dict)
        else parseURLEncodedLoop .parseValue dict query_name query_value rest
      else if c == 38 then
        if query_name = [] then (false, dict)
        else parseURLEncodedLoop .parseName (dict ++ [(query_name, query_value)]) [] query_value rest
      else if isControl c || query_name.length ≥ QUERY_NAME_MAX then (false, dict)
      else parseURLEncodedLoop .parseName dict (query_name ++ [c]) query_value rest
  | .parseValue, dict, query_name, query_value, c :: rest =>
      if c == 38 then
        parseURLEncodedLoop .parseName (dict ++ [(query_name, query_value)]) [] [] rest
      else if isControl c || query_value.length ≥ QUERY_VALUE_MAX then (false, dict)
      else parseURLEncodedLoop .parseValue dict query_name (query_value ++ [c]) rest

/-- `HTTPRequestParser::parseURLEncoded(dict, ptr, len)`. -/
def parseURLEncoded (dict : List (List Nat × List Nat)) (input : List Nat) :
    Bool × List (List Nat × List Nat) :=
  parseURLEncodedLoop .parseName dict [] [] input

/-- Whatever happens, entries already inserted into the dictionary are
retained: the input dictionary is a prefix of the output dictionary. -/
theorem parseURLEncodedLoop_dict_mono :
    ∀ (input : List Nat) (qs : QueryParseState) (dict : List (List Nat × List Nat))
      (qn qv : List Nat), dict <+: (parseURLEncodedLoop qs dict qn qv input).2 := by
  intro input
  induction input with
  | nil =>
    intro qs dict qn qv
    by_cases h : qn ≠ [] <;> simp [parseURLEncodedLoop, h, List.prefix_append]
  | cons c rest ih =>
    intro qs dict qn qv
    cases qs with
    | parseName =>
      by_cases h61 : c == 61
      · by_cases hqn : qn = [] <;> simp [parseURLEncodedLoop, h61, hqn, ih]
      · by_cases h38 : c == 38
        · by_cases hqn : qn = []
          · simp [parseURLEncodedLoop, h61, h38, hqn]
          · simp only [parseURLEncodedLoop, h61, h38, hqn, if_false, if_true, ite_false, ite_true]
            exact List.IsPrefix.trans (List.prefix_append dict _) (by simpa using ih _ _ _ _)
        · by_cases hbad : isControl c || qn.length ≥ QUERY_NAME_MAX <;>
            simp [parseURLEncodedLoop, h61, h38, hbad, ih]
    | parseValue =>
      by_cases h38 : c == 38
      · simp only [parseURLEncodedLoop, h38, if_true, ite_true]
        exact List.IsPrefix.trans (List.prefix_append dict _) (by simpa using ih _ _ _ _)
      · by_cases hbad : isControl c || qv.length ≥ QUERY_VALUE_MAX <;>
          simp [parseURLEncodedLoop, h38, hbad, ih]

/-! ## Header lookup and completion sequence

Modelled from the spec: the `HTTPRequest` accessors `hasHeader`/`getHeader`
and the `HTTPTypes` string constants are not part of the provided sources;
headers are an insertion-ordered multi-map (spec sections 3 and 9) and
lookup returns the first entry with the given name, or the empty string. -/

/-- "Content-Length" as octets. -/
def HEADER_CONTENT_LENGTH : List Nat :=
  [67,111,110,116,101,110,116,45,76,101,110,103,116,104]

/-- "Content-Type" as octets. -/
def HEADER_CONTENT_TYPE : List Nat :=
  [67,111,110,116,101,110,116,45,84,121,112,101]

/-- "application/x-www-form-urlencoded" as octets. -/
def CONTENT_TYPE_URLENCODED : List Nat :=
  [97,112,112,108,105,99,97,116,105,111,110,47,120,45,119,119,119,45,102,
   111,114,109,45,117,114,108,101,110,99,111,100,101,100]

def hasHeader (r : HTTPRequest) (name : List Nat) : Bool :=
  r.headers.any (fun p => p.1 == name)

def getHeader (r : HTTPRequest) (name : List Nat) : List Nat :=
  match r.headers.find? (fun p => p.1 == name) with
  | some p => p.2
  | none => []

/-- Step 2 of the completion sequence (lines 152-158): decode the URI query
string into `query_params` when it is non-empty; a failure only logs. -/
def completionQueryStage (r1 : HTTPRequest) : HTTPRequest :=
  if r1.query_string ≠ [] then
    { r1 with query_params := (parseURLEncoded r1.query_params r1.query_string).2 }
  else r1

/-- Step 3 of the completion sequence (lines 160-168): decode the post
content into `query_params` when the Content-Type header equals
application/x-www-form-urlencoded; a failure only logs. -/
def completionBodyStage (r2 : HTTPRequest) : HTTPRequest :=
  if getHeader r2 HEADER_CONTENT_TYPE == CONTENT_TYPE_URLENCODED then
    { r2 with query_params :=
        (parseURLEncoded r2.query_params (r2.post_content.take r2.content_length)).2 }
  else r2

/-- The completion sequence of `HTTPRequestParser::readContentBytes`
(src/src/HTTPRequestParser.cpp lines 149-171): set `is_valid` to true, run
the query-string decode, run the body decode.  The resulting request is the
one handed to the user handler. -/
def readContentBytesComplete (r : HTTPRequest) : HTTPRequest :=
  completionBodyStage (completionQueryStage (setIsValid r true))

/-- Both decode stages leave every field but `query_params` alone and only
ever extend `query_params`. -/
def OnlyParamsExtended (a b : HTTPRequest) : Prop :=
  b.method = a.method ∧ b.resource = a.resource ∧ b.query_string = a.query_string ∧
  b.version_major = a.version_major ∧ b.version_minor = a.version_minor ∧
  b.headers = a.headers ∧ b.content_length = a.content_length ∧
  b.post_content = a.post_content ∧ b.is_valid = a.is_valid ∧
  a.query_params <+: b.query_params

theorem onlyParamsExtended_refl (a : HTTPRequest) : OnlyParamsExtended a a :=
  ⟨rfl, rfl, rfl, rfl, rfl, rfl, rfl, rfl, rfl, List.prefix_rfl⟩

theorem onlyParamsExtended_trans {a b c : HTTPRequest}
    (h1 : OnlyParamsExtended a b) (h2 : OnlyParamsExtended b c) : OnlyParamsExtended a c := by
  obtain ⟨e1, e2, e3, e4, e5, e6, e7, e8, e9, p⟩ := h1
  obtain ⟨f1, f2, f3, f4, f5, f6, f7, f8, f9, q⟩ := h2
  exact ⟨f1.trans e1, f2.trans e2, f3.trans e3, f4.trans e4, f5.trans e5, f6.trans e6,
    f7.trans e7, f8.trans e8, f9.trans e9, p.trans q⟩

theorem completionQueryStage_onlyParams (r : HTTPRequest) :
    OnlyParamsExtended r (completionQueryStage r) := by
  unfold completionQueryStage
  split
  · exact ⟨rfl, rfl, rfl, rfl, rfl, rfl, rfl, rfl, rfl,
      parseURLEncodedLoop_dict_mono _ _ _ _ _⟩
  · exact onlyParamsExtended_refl r

theorem completionBodyStage_onlyParams (r : HTTPRequest) :
    OnlyParamsExtended r (completionBodyStage r) := by
  unfold completionBodyStage
  split
  · exact ⟨rfl, rfl, rfl, rfl, rfl, rfl, rfl, rfl, rfl,
      parseURLEncodedLoop_dict_mono _ _ _ _ _⟩
  · exact onlyParamsExtended_refl r

/-! ## Claims C3 and C6 -/

/-- C3 counterexample: for a request whose query string is "a=1", the
completion sequence does not leave the request exactly as it was at the
moment `is_valid` was set to true: `query_params` is mutated afterwards,
before the user handler is invoked. -/
theorem completion_mutates_queryParams_after_isValid :
    readContentBytesComplete { query_string := [97,61,49] } ≠
      setIsValid { query_string := [97,61,49] } true := by
  decide

/-- C3 amended: after the completion sequence sets `is_valid` to true, every
field of the request other than `query_params` is left unchanged before the
user handler is invoked, `is_valid` stays true, and `query_params` is only
ever extended (the prior entries remain a prefix of the final value). -/
theorem completion_preserves_all_but_queryParams (r : HTTPRequest) :
    OnlyParamsExtended (setIsValid r true) (readContentBytesComplete r) ∧
    (readContentBytesComplete r).is_valid = true :=
  have h : OnlyParamsExtended (setIsValid r true) (readContentBytesComplete r) :=
    onlyParamsExtended_trans (completionQueryStage_onlyParams (setIsValid r true))
      (completionBodyStage_onlyParams (completionQueryStage (setIsValid r true)))
  ⟨h, h.2.2.2.2.2.2.2.2.1⟩

/-- C6: when `parseURLEncoded` rejects while decoding the query string or
an application/x-www-form-urlencoded body during the completion sequence,
the request's `is_valid` flag is still true in the request delivered to the
handler, and every (name, value) pair committed to the dictionary before
the failing octet is retained in the final `query_params`: the dictionary
left behind by the failed query-string decode is a prefix of the final
`query_params`, and the dictionary left behind by the failed body decode
(which runs on the query-decode's output dictionary) is a prefix of it as
well. -/
theorem formError_keeps_request_valid (r : HTTPRequest) :
    (readContentBytesComplete r).is_valid = true ∧
    (r.query_string ≠ [] →
      (parseURLEncoded r.query_params r.query_string).1 = false →
      (parseURLEncoded r.query_params r.query_string).2 <+:
        (readContentBytesComplete r).query_params) ∧
    ((getHeader r HEADER_CONTENT_TYPE == CONTENT_TYPE_URLENCODED) = true →
      (parseURLEncoded (completionQueryStage (setIsValid r true)).query_params
          (r.post_content.take r.content_length)).1 = false →
      (parseURLEncoded (completionQueryStage (setIsValid r true)).query_params
          (r.post_content.take r.content_length)).2 <+:
        (readContentBytesComplete r).query_params) := by
  have hq2 := completionQueryStage_onlyParams (setIsValid r true)
  have hbody := completionBodyStage_onlyParams (completionQueryStage (setIsValid r true))
  have hheads : (completionQueryStage (setIsValid r true)).headers = r.headers :=
    hq2.2.2.2.2.2.1
  have hclen : (completionQueryStage (setIsValid r true)).content_length = r.content_length :=
    hq2.2.2.2.2.2.2.1
  have hpost : (completionQueryStage (setIsValid r true)).post_content = r.post_content :=
    hq2.2.2.2.2.2.2.2.1
  have hval2 : (completionQueryStage (setIsValid r true)).is_valid = true :=
    hq2.2.2.2.2.2.2.2.2.1
  refine ⟨?_, ?_, ?_⟩
  · have h9 := hbody.2.2.2.2.2.2.2.2.1
    unfold readContentBytesComplete
    rw [h9, hval2]
  · intro hq _hfail
    have hq1 : completionQueryStage (setIsValid r true) =
        { setIsValid r true with
          query_params := (parseURLEncoded r.query_params r.query_string).2 } := by
      unfold completionQueryStage setIsValid
      simp [hq]
    have hp := hbody.2.2.2.2.2.2.2.2.2
    have hqp : (completionQueryStage (setIsValid r true)).query_params =
        (parseURLEncoded r.query_params r.query_string).2 := by
      rw [hq1]
    unfold readContentBytesComplete
    rw [← hqp]
    exact hp
  · intro hct _hbfail
    have hcond : (getHeader (completionQueryStage (setIsValid r true)) HEADER_CONTENT_TYPE ==
        CONTENT_TYPE_URLENCODED) = true := by
      unfold getHeader at hct ⊢
      rw [hheads]
      exact hct
    have hfinal : readContentBytesComplete r =
        { completionQueryStage (setIsValid r true) with
          query_params := (parseURLEncoded
            (completionQueryStage (setIsValid r true)).query_params
            ((completionQueryStage (setIsValid r true)).post_content.take
              (completionQueryStage (setIsValid r true)).content_length)).2 } := by
      unfold readContentBytesComplete completionBodyStage
      rw [if_pos hcond]
    rw [hfinal, hpost, hclen]

/-- Witness for C6: a request with one pre-committed pair (x, y), query
string "=a" (fails on its first octet), a Content-Type header equal to
application/x-www-form-urlencoded, and the two-octet body "=b" (fails on
its first octet); the delivered request is valid and both failed decodes'
dictionaries are retained in `query_params`. -/
theorem formError_keeps_request_valid_witness :
    (readContentBytesComplete
        { query_params := [([120],[121])], query_string := [61,97],
          headers := [(HEADER_CONTENT_TYPE, CONTENT_TYPE_URLENCODED)],
          post_content := [61,98], content_length := 2 }).is_valid = true ∧
    (parseURLEncoded [([120],[121])] [61,97]).2 <+:
      (readContentBytesComplete
        { query_params := [([120],[121])], query_string := [61,97],
          headers := [(HEADER_CONTENT_TYPE, CONTENT_TYPE_URLENCODED)],
          post_content := [61,98], content_length := 2 }).query_params ∧
    (parseURLEncoded
        (completionQueryStage (setIsValid
          { query_params := [([120],[121])], query_string := [61,97],
            headers := [(HEADER_CONTENT_TYPE, CONTENT_TYPE_URLENCODED)],
            post_content := [61,98], content_length := 2 } true)).query_params
        (List.take 2 [61,98])).2 <+:
      (readContentBytesComplete
        { query_params := [([120],[121])], query_string := [61,97],
          headers := [(HEADER_CONTENT_TYPE, CONTENT_TYPE_URLENCODED)],
          post_content := [61,98], content_length := 2 }).query_params :=
  ⟨(formError_keeps_request_valid
      { query_params := [([120],[121])], query_string := [61,97],
        headers := [(HEADER_CONTENT_TYPE, CONTENT_TYPE_URLENCODED)],
        post_content := [61,98], content_length := 2 }).1,
   (formError_keeps_request_valid
      { query_params := [([120],[121])], query_string := [61,97],
        headers := [(HEADER_CONTENT_TYPE, CONTENT_TYPE_URLENCODED)],
        post_content := [61,98], content_length := 2 }).2.1
     (by decide) (by decide),
   (formError_keeps_request_valid
      { query_params := [([120],[121])], query_string := [61,97],
        headers := [(HEADER_CONTENT_TYPE, CONTENT_TYPE_URLENCODED)],
        post_content := [61,98], content_length := 2 }).2.2
     (by decide) (by decide)⟩

/-! ## Body read phase of readHeaderBytes -/

/-- Result of the body phase of `readHeaderBytes` (lines 84-121): the
residual octets copied into the front of the freshly allocated body buffer,
and `content_bytes_to_read`, the exact size of the follow-up read (0 means
no further read is issued). -/
structure BodyPhase where
  post_buffer : List Nat
  content_bytes_to_read : Nat
deriving Repr, DecidableEq

/-- The residual-copy logic of `readHeaderBytes` for a declared content
length (lines 86-121): `residual` is the read buffer past the consumed
octets (`bytes_read - consumed` octets, `read_ptr` to `read_end`). -/
def bodyPhase (residual : List Nat) (content_length : Nat) : BodyPhase :=
  if residual.length ≠ 0 then
    if residual.length ≥ content_length then
      { post_buffer := residual.take content_length, content_bytes_to_read := 0 }
    else
      { post_buffer := residual, content_bytes_to_read := content_length - residual.length }
  else { post_buffer := [], content_bytes_to_read := content_length }

/-- C7: with a declared content length L > 0, the reader copies exactly
min(|residual|, L) residual octets into the prefix of the body buffer
(octets beyond L are dropped), and issues a further read if and only if the
residual is smaller than L, and then for exactly the shortfall. -/
theorem bodyPhase_copies_min_and_reads_shortfall (residual : List Nat) (L : Nat)
    (hL : 0 < L) :
    (bodyPhase residual L).post_buffer = residual.take L ∧
    (bodyPhase residual L).post_buffer.length = min (residual.length) L ∧
    ((bodyPhase residual L).content_bytes_to_read ≠ 0 ↔ residual.length < L) ∧
    (residual.length < L →
      (bodyPhase residual L).content_bytes_to_read = L - residual.length) := by
  unfold bodyPhase
  by_cases hz : residual.length ≠ 0
  · by_cases hge : residual.length ≥ L
    · rw [if_pos hz, if_pos hge]
      dsimp only
      refine ⟨rfl, ?_, ?_, ?_⟩
      · rw [List.length_take]
        omega
      · constructor
        · intro h
          exact absurd rfl h
        · intro h
          omega
      · intro h
        omega
    · rw [if_pos hz, if_neg hge]
      dsimp only
      refine ⟨(List.take_of_length_le (by omega)).symm, by omega, ?_, fun _ => rfl⟩
      constructor
      · intro _
        omega
      · intro _
        omega
  · push_neg at hz
    have hres : residual = [] := List.length_eq_zero.mp hz
    subst hres
    rw [if_neg (by simp)]
    dsimp only
    refine ⟨by simp, by simp, ?_, fun _ => by simp⟩
    constructor
    · intro _
      simpa using hL
    · intro _
      omega

/-- Witness for C7 at residual [1,2,3] and content length 2. -/
theorem bodyPhase_copies_min_and_reads_shortfall_witness :
    (bodyPhase [1,2,3] 2).post_buffer = List.take 2 [1,2,3] ∧
    (bodyPhase [1,2,3] 2).post_buffer.length = min (List.length [1,2,3]) 2 ∧
    ((bodyPhase [1,2,3] 2).content_bytes_to_read ≠ 0 ↔ List.length [1,2,3] < 2) ∧
    (List.length [1,2,3] < 2 →
      (bodyPhase [1,2,3] 2).content_bytes_to_read = 2 - List.length [1,2,3]) :=
  bodyPhase_copies_min_and_reads_shortfall [1,2,3] 2 (by decide)

/-! ## Content-length derivation (readHeaderBytes lines 74-82)

Modelled from the spec: `strtoul(value, 0, 10)` is the C library routine
the source calls on line 76; it skips leading whitespace, accepts an
optional sign, then accumulates base-10 digits, and returns 0 when no digit
follows the optional sign.  A minus sign negates modulo 2^64 (unsigned
long).  Only the no-digit → 0 behavior is relied on below. -/

def isSpaceByte (c : Nat) : Bool := c == 32 || (9 ≤ c && c ≤ 13)

def digitsVal (acc : Nat) : List Nat → Nat
  | [] => acc
  | c :: rest => if isDigit c then digitsVal (acc * 10 + (c - 48)) rest else acc

/-- strtoul after the leading whitespace has been skipped. -/
def strtoulCore : List Nat → Nat
  | [] => 0
  | c :: rest =>
      if c = 43 then digitsVal 0 rest
      else if c = 45 then (2 ^ 64 - digitsVal 0 rest) % 2 ^ 64
      else digitsVal 0 (c :: rest)

def strtoul10 (s : List Nat) : Nat := strtoulCore (s.dropWhile isSpaceByte)

/-- Whether the remaining octets begin with an optional sign followed by a
decimal digit. -/
def beginsSignDigitCore : List Nat → Bool
  | [] => false
  | c :: rest =>
      if c = 43 ∨ c = 45 then
        match rest with
        | [] => false
        | c2 :: _ => isDigit c2
      else isDigit c

def beginsSignDigit (s : List Nat) : Bool :=
  beginsSignDigitCore (s.dropWhile isSpaceByte)

theorem digitsVal_no_digit (c : Nat) (t : List Nat) (h : isDigit c = false) :
    digitsVal 0 (c :: t) = 0 := by
  simp [digitsVal, h]

theorem strtoulCore_no_digit (d : List Nat) (h : beginsSignDigitCore d = false) :
    strtoulCore d = 0 := by
  rcases d with _ | ⟨c, t⟩
  · rfl
  · simp only [strtoulCore]
    simp only [beginsSignDigitCore] at h
    by_cases h43 : c = 43
    · rw [if_pos h43]
      rw [if_pos (Or.inl h43)] at h
      rcases t with _ | ⟨c2, t2⟩
      · rfl
      · exact digitsVal_no_digit c2 t2 h
    · by_cases h45 : c = 45
      · rw [if_neg h43, if_pos h45]
        rw [if_pos (Or.inr h45)] at h
        rcases t with _ | ⟨c2, t2⟩
        · norm_num [digitsVal]
        · rw [digitsVal_no_digit c2 t2 h]
          norm_num
      · rw [if_neg h43, if_neg h45]
        rw [if_neg (by tauto)] at h
        exact digitsVal_no_digit c t h

theorem strtoul10_no_digit (s : List Nat) (h : beginsSignDigit s = false) :
    strtoul10 s = 0 :=
  strtoulCore_no_digit _ h

/-- `content_length` as computed on lines 74-77: 0 when the Content-Length
header is absent, else strtoul of its value. -/
def contentLengthOf (r : HTTPRequest) : Nat :=
  if hasHeader r HEADER_CONTENT_LENGTH then strtoul10 (getHeader r HEADER_CONTENT_LENGTH)
  else 0

/-- What `readHeaderBytes` does after `parseRequestHeaders` accepts
(lines 79-121): with `content_length == 0` it calls `readContentBytes`
directly (no body buffer is created and no body octets are read);
otherwise it allocates the buffer and runs the residual-copy body phase. -/
inductive AcceptAction where
  | complete
  | body (bp : BodyPhase)
deriving Repr, DecidableEq

def readHeaderBytesAccept (r : HTTPRequest) (residual : List Nat) : AcceptAction :=
  if contentLengthOf r = 0 then .complete
  else .body (bodyPhase residual (contentLengthOf r))

/-! ## Claim C10 -/

/-- C10: if a Content-Length header is present but its value does not begin
with an optional sign followed by a decimal digit (after optional leading
whitespace), the reader computes `content_length` as 0 (strtoul behavior),
allocates no body buffer, reads no body octets, and proceeds directly to
the completion sequence. -/
theorem junk_content_length_means_no_body (r : HTTPRequest) (residual : List Nat)
    (hhas : hasHeader r HEADER_CONTENT_LENGTH = true)
    (hjunk : beginsSignDigit (getHeader r HEADER_CONTENT_LENGTH) = false) :
    contentLengthOf r = 0 ∧ readHeaderBytesAccept r residual = .complete := by
  have h0 : strtoul10 (getHeader r HEADER_CONTENT_LENGTH) = 0 :=
    strtoul10_no_digit _ hjunk
  have hc : contentLengthOf r = 0 := by
    unfold contentLengthOf
    rw [hhas]
    simpa using h0
  refine ⟨hc, ?_⟩
  unfold readHeaderBytesAccept
  rw [hc]
  rfl

/-- Witness for C10: Content-Length "abc" with residual octets [1,2]. -/
theorem junk_content_length_means_no_body_witness :
    contentLengthOf { headers := [(HEADER_CONTENT_LENGTH, [97,98,99])] } = 0 ∧
    readHeaderBytesAccept { headers := [(HEADER_CONTENT_LENGTH, [97,98,99])] } [1,2] =
      .complete :=
  junk_content_length_means_no_body
    { headers := [(HEADER_CONTENT_LENGTH, [97,98,99])] } [1,2]
    (by decide) (by decide)

/-! ## Reject delivery (readHeaderBytes lines 123-127) -/

/-- The reject branch of `readHeaderBytes`: mark the request invalid and
deliver it to the handler exactly as the machine left it. -/
def readHeaderBytesReject (input : List Nat) : HTTPRequest :=
  setIsValid (feed initState input).state.request false

/-- The parser state carried inside any `StepResult`. -/
def StepResult.toState : StepResult → ParserState
  | .next s => s
  | .acceptConsume s => s
  | .acceptKeep s => s
  | .reject s => s

/-- The method has been committed: the machine is past the method states,
which are the only ones that write `request.method`. -/
def MethodCommitted (s : ParserState) : Prop :=
  s.parse_state ≠ .methodStart ∧ s.parse_state ≠ .methodTok

/-- The resource has been committed (only `uriStem` writes it). -/
def ResourceCommitted (s : ParserState) : Prop :=
  MethodCommitted s ∧ s.parse_state ≠ .uriStem

/-- The query string has been committed (only `uriQuery` writes it). -/
def QueryCommitted (s : ParserState) : Prop :=
  ResourceCommitted s ∧ s.parse_state ≠ .uriQuery

/-- Nothing committed to the request is ever rolled back between machine
states: headers only grow, and once the method / resource / query string
have been committed they stay put. -/
def Preserves (s s' : ParserState) : Prop :=
  s.request.headers <+: s'.request.headers ∧
  (MethodCommitted s → MethodCommitted s' ∧ s'.request.method = s.request.method) ∧
  (ResourceCommitted s → ResourceCommitted s' ∧ s'.request.resource = s.request.resource) ∧
  (QueryCommitted s → QueryCommitted s' ∧ s'.request.query_string = s.request.query_string)

theorem preserves_refl (s : ParserState) : Preserves s s :=
  ⟨List.prefix_rfl, fun h => ⟨h, rfl⟩, fun h => ⟨h, rfl⟩, fun h => ⟨h, rfl⟩⟩

theorem preserves_trans {a b c : ParserState}
    (h1 : Preserves a b) (h2 : Preserves b c) : Preserves a c := by
  obtain ⟨hh1, hm1, hr1, hq1⟩ := h1
  obtain ⟨hh2, hm2, hr2, hq2⟩ := h2
  refine ⟨hh1.trans hh2, ?_, ?_, ?_⟩
  · intro h
    obtain ⟨h', e⟩ := hm1 h
    obtain ⟨h'', e'⟩ := hm2 h'
    exact ⟨h'', e'.trans e⟩
  · intro h
    obtain ⟨h', e⟩ := hr1 h
    obtain ⟨h'', e'⟩ := hr2 h'
    exact ⟨h'', e'.trans e⟩
  · intro h
    obtain ⟨h', e⟩ := hq1 h
    obtain ⟨h'', e'⟩ := hq2 h'
    exact ⟨h'', e'.trans e⟩

set_option maxHeartbeats 1000000 in
theorem step_preserves (s : ParserState) (c : Nat) : Preserves s (step s c).toState := by
  unfold Preserves MethodCommitted ResourceCommitted QueryCommitted
  simp only [step]
  cases hps : s.parse_state <;>
    simp only [] <;>
    (repeat' split) <;>
    simp_all [StepResult.toState, MethodCommitted, ResourceCommitted, QueryCommitted,
      List.prefix_append, List.prefix_rfl, addHeader, setMethod,
      setResource, setQueryString, setVersionMajor, setVersionMinor]

theorem feed_preserves (l : List Nat) : ∀ s : ParserState, Preserves s (feed s l).state := by
  induction l with
  | nil => intro s; exact preserves_refl s
  | cons c rest ih =>
    intro s
    have hst := step_preserves s c
    cases hstep : step s c with
    | next s1 =>
      rw [hstep] at hst
      simp only [feed, hstep]
      exact preserves_trans hst (ih s1)
    | acceptConsume s1 =>
      rw [hstep] at hst
      simpa [feed, hstep] using hst
    | acceptKeep s1 =>
      rw [hstep] at hst
      simpa [feed, hstep] using hst
    | reject s1 =>
      rw [hstep] at hst
      simpa [feed, hstep] using hst

/-! ## Claim C9 -/

/-- C9: when the header machine returns Reject, nothing is rolled back:
the fields committed while processing any earlier prefix `p` of the input
(the method committed at its terminating space, the resource committed at
space or question mark, the query string committed at its space, every
complete header already added) remain set in the invalid request that the
reject branch of `readHeaderBytes` delivers to the handler with `is_valid`
false. -/
theorem headerMachine_reject_retains_committed_fields (input p rest : List Nat)
    (hsplit : input = p ++ rest)
    (_hrej : (feed initState input).outcome = .reject) :
    (readHeaderBytesReject input).is_valid = false ∧
    (feed initState p).state.request.headers <+: (readHeaderBytesReject input).headers ∧
    (MethodCommitted (feed initState p).state →
      (readHeaderBytesReject input).method = (feed initState p).state.request.method) ∧
    (ResourceCommitted (feed initState p).state →
      (readHeaderBytesReject input).resource = (feed initState p).state.request.resource) ∧
    (QueryCommitted (feed initState p).state →
      (readHeaderBytesReject input).query_string =
        (feed initState p).state.request.query_string) := by
  have hpres : Preserves (feed initState p).state (feed initState input).state := by
    rcases hfp : feed initState p with ⟨o, sp, n⟩
    cases o with
    | needMore =>
      rw [hsplit, feed_append_needMore rest p initState sp n hfp]
      exact feed_preserves rest sp
    | accept =>
      rw [hsplit, feed_append_done rest p initState (by rw [hfp]; simp), hfp]
      exact preserves_refl sp
    | reject =>
      rw [hsplit, feed_append_done rest p initState (by rw [hfp]; simp), hfp]
      exact preserves_refl sp
  obtain ⟨hh, hm, hr, hq⟩ := hpres
  have hval : (readHeaderBytesReject input).is_valid = false := rfl
  refine ⟨hval, hh, fun h => (hm h).2, fun h => (hr h).2, fun h => (hq h).2⟩

/-- Witness for C9: "GET /ab?q=1 HTTP/1.1 CRLF Host: x CRLF" followed by
"Y" and a control octet is rejected; the prefix's committed method,
resource, query string and Host header survive in the delivered request. -/
theorem headerMachine_reject_retains_committed_fields_witness :
    (readHeaderBytesReject
        [71,69,84,32,47,97,98,63,113,61,49,32,72,84,84,80,47,49,46,49,13,10,
         72,111,115,116,58,32,120,13,10,89,1]).is_valid = false ∧
    (feed initState
        [71,69,84,32,47,97,98,63,113,61,49,32,72,84,84,80,47,49,46,49,13,10,
         72,111,115,116,58,32,120,13,10]).state.request.headers <+:
      (readHeaderBytesReject
        [71,69,84,32,47,97,98,63,113,61,49,32,72,84,84,80,47,49,46,49,13,10,
         72,111,115,116,58,32,120,13,10,89,1]).headers ∧
    (MethodCommitted (feed initState
        [71,69,84,32,47,97,98,63,113,61,49,32,72,84,84,80,47,49,46,49,13,10,
         72,111,115,116,58,32,120,13,10]).state →
      (readHeaderBytesReject
        [71,69,84,32,47,97,98,63,113,61,49,32,72,84,84,80,47,49,46,49,13,10,
         72,111,115,116,58,32,120,13,10,89,1]).method =
        (feed initState
        [71,69,84,32,47,97,98,63,113,61,49,32,72,84,84,80,47,49,46,49,13,10,
         72,111,115,116,58,32,120,13,10]).state.request.method) ∧
    (ResourceCommitted (feed initState
        [71,69,84,32,47,97,98,63,113,61,49,32,72,84,84,80,47,49,46,49,13,10,
         72,111,115,116,58,32,120,13,10]).state →
      (readHeaderBytesReject
        [71,69,84,32,47,97,98,63,113,61,49,32,72,84,84,80,47,49,46,49,13,10,
         72,111,115,116,58,32,120,13,10,89,1]).resource =
        (feed initState
        [71,69,84,32,47,97,98,63,113,61,49,32,72,84,84,80,47,49,46,49,13,10,
         72,111,115,116,58,32,120,13,10]).state.request.resource) ∧
    (QueryCommitted (feed initState
        [71,69,84,32,47,97,98,63,113,61,49,32,72,84,84,80,47,49,46,49,13,10,
         72,111,115,116,58,32,120,13,10]).state →
      (readHeaderBytesReject
        [71,69,84,32,47,97,98,63,113,61,49,32,72,84,84,80,47,49,46,49,13,10,
         72,111,115,116,58,32,120,13,10,89,1]).query_string =
        (feed initState
        [71,69,84,32,47,97,98,63,113,61,49,32,72,84,84,80,47,49,46,49,13,10,
         72,111,115,116,58,32,120,13,10]).state.request.query_string) :=
  headerMachine_reject_retains_committed_fields
    [71,69,84,32,47,97,98,63,113,61,49,32,72,84,84,80,47,49,46,49,13,10,
     72,111,115,116,58,32,120,13,10,89,1]
    [71,69,84,32,47,97,98,63,113,61,49,32,72,84,84,80,47,49,46,49,13,10,
     72,111,115,116,58,32,120,13,10]
    [89,1]
    (by decide) (by decide)

/-! ## Feeding runs of identical octets (for the size-ceiling claims) -/

theorem feedRep_method (c : Nat) (rest : List Nat)
    (hbad : (!isChar c || isControl c || isSpecial c) = false) (h32 : (c == 32) = false) :
    ∀ (n : Nat) (s : ParserState), s.parse_state = .methodTok →
      s.m_method.length + n ≤ METHOD_MAX →
      feed s (List.replicate n c ++ rest) =
        ⟨(feed { s with m_method := s.m_method ++ List.replicate n c } rest).outcome,
         (feed { s with m_method := s.m_method ++ List.replicate n c } rest).state,
         (feed { s with m_method := s.m_method ++ List.replicate n c } rest).consumed + n⟩ := by
  intro n
  induction n with
  | zero =>
    intro s hps hlen
    simp
  | succ n ih =>
    intro s hps hlen
    have hlt : ¬ s.m_method.length ≥ METHOD_MAX := by omega
    have hstep : step s c = .next { s with m_method := s.m_method ++ [c] } := by
      simp [step, hps, h32, hbad, hlt]
    rw [List.replicate_succ, List.cons_append]
    simp only [feed, hstep]
    rw [ih { s with m_method := s.m_method ++ [c] } (by simp [hps]) (by simp; omega)]
    have hmm : (s.m_method ++ [c]) ++ List.replicate n c = s.m_method ++ c :: List.replicate n c := by
      simp
    simp only [hmm]
    simp only [FeedResult.mk.injEq]
    exact ⟨trivial, trivial, by omega⟩

theorem feedRep_uriStem (c : Nat) (rest : List Nat)
    (h32 : (c == 32) = false) (h63 : (c == 63) = false) (hctl : isControl c = false) :
    ∀ (n : Nat) (s : ParserState), s.parse_state = .uriStem →
      s.m_resource.length + n ≤ RESOURCE_MAX →
      feed s (List.replicate n c ++ rest) =
        ⟨(feed { s with m_resource := s.m_resource ++ List.replicate n c } rest).outcome,
         (feed { s with m_resource := s.m_resource ++ List.replicate n c } rest).state,
         (feed { s with m_resource := s.m_resource ++ List.replicate n c } rest).consumed + n⟩ := by
  intro n
  induction n with
  | zero =>
    intro s hps hlen
    simp
  | succ n ih =>
    intro s hps hlen
    have hlt : ¬ s.m_resource.length ≥ RESOURCE_MAX := by omega
    have hstep : step s c = .next { s with m_resource := s.m_resource ++ [c] } := by
      simp [step, hps, h32, h63, hctl, hlt]
    rw [List.replicate_succ, List.cons_append]
    simp only [feed, hstep]
    rw [ih { s with m_resource := s.m_resource ++ [c] } (by simp [hps]) (by simp; omega)]
    have hmm : (s.m_resource ++ [c]) ++ List.replicate n c =
        s.m_resource ++ c :: List.replicate n c := by
      simp
    simp only [hmm]
    simp only [FeedResult.mk.injEq]
    exact ⟨trivial, trivial, by omega⟩

theorem feedRep_uriQuery (c : Nat) (rest : List Nat)
    (h32 : (c == 32) = false) (hctl : isControl c = false) :
    ∀ (n : Nat) (s : ParserState), s.parse_state = .uriQuery →
      s.m_query_string.length + n ≤ QUERY_STRING_MAX →
      feed s (List.replicate n c ++ rest) =
        ⟨(feed { s with m_query_string := s.m_query_string ++ List.replicate n c } rest).outcome,
         (feed { s with m_query_string := s.m_query_string ++ List.replicate n c } rest).state,
         (feed { s with m_query_string := s.m_query_string ++ List.replicate n c } rest).consumed + n⟩ := by
  intro n
  induction n with
  | zero =>
    intro s hps hlen
    simp
  | succ n ih =>
    intro s hps hlen
    have hlt : ¬ s.m_query_string.length ≥ QUERY_STRING_MAX := by omega
    have hstep : step s c = .next { s with m_query_string := s.m_query_string ++ [c] } := by
      simp [step, hps, h32, hctl, hlt]
    rw [List.replicate_succ, List.cons_append]
    simp only [feed, hstep]
    rw [ih { s with m_query_string := s.m_query_string ++ [c] } (by simp [hps]) (by simp; omega)]
    have hmm : (s.m_query_string ++ [c]) ++ List.replicate n c =
        s.m_query_string ++ c :: List.replicate n c := by
      simp
    simp only [hmm]
    simp only [FeedResult.mk.injEq]
    exact ⟨trivial, trivial, by omega⟩

theorem feedRep_headerName (c : Nat) (rest : List Nat)
    (hbad : (!isChar c || isControl c || isSpecial c) = false) (h58 : (c == 58) = false) :
    ∀ (n : Nat) (s : ParserState), s.parse_state = .headerName →
      s.m_header_name.length + n ≤ HEADER_NAME_MAX →
      feed s (List.replicate n c ++ rest) =
        ⟨(feed { s with m_header_name := s.m_header_name ++ List.replicate n c } rest).outcome,
         (feed { s with m_header_name := s.m_header_name ++ List.replicate n c } rest).state,
         (feed { s with m_header_name := s.m_header_name ++ List.replicate n c } rest).consumed + n⟩ := by
  intro n
  induction n with
  | zero =>
    intro s hps hlen
    simp
  | succ n ih =>
    intro s hps hlen
    have hlt : ¬ s.m_header_name.length ≥ HEADER_NAME_MAX := by omega
    have hstep : step s c = .next { s with m_header_name := s.m_header_name ++ [c] } := by
      simp [step, hps, h58, hbad, hlt]
    rw [List.replicate_succ, List.cons_append]
    simp only [feed, hstep]
    rw [ih { s with m_header_name := s.m_header_name ++ [c] } (by simp [hps]) (by simp; omega)]
    have hmm : (s.m_header_name ++ [c]) ++ List.replicate n c =
        s.m_header_name ++ c :: List.replicate n c := by
      simp
    simp only [hmm]
    simp only [FeedResult.mk.injEq]
    exact ⟨trivial, trivial, by omega⟩

theorem feedRep_headerValue (c : Nat) (rest : List Nat)
    (h13 : (c == 13) = false) (h10 : (c == 10) = false) (hctl : isControl c = false) :
    ∀ (n : Nat) (s : ParserState), s.parse_state = .headerValue →
      s.m_header_value.length + n ≤ HEADER_VALUE_MAX →
      feed s (List.replicate n c ++ rest) =
        ⟨(feed { s with m_header_value := s.m_header_value ++ List.replicate n c } rest).outcome,
         (feed { s with m_header_value := s.m_header_value ++ List.replicate n c } rest).state,
         (feed { s with m_header_value := s.m_header_value ++ List.replicate n c } rest).consumed + n⟩ := by
  intro n
  induction n with
  | zero =>
    intro s hps hlen
    simp
  | succ n ih =>
    intro s hps hlen
    have hlt : ¬ s.m_header_value.length ≥ HEADER_VALUE_MAX := by omega
    have hstep : step s c = .next { s with m_header_value := s.m_header_value ++ [c] } := by
      simp [step, hps, h13, h10, hctl, hlt]
    rw [List.replicate_succ, List.cons_append]
    simp only [feed, hstep]
    rw [ih { s with m_header_value := s.m_header_value ++ [c] } (by simp [hps]) (by simp; omega)]
    have hmm : (s.m_header_value ++ [c]) ++ List.replicate n c =
        s.m_header_value ++ c :: List.replicate n c := by
      simp
    simp only [hmm]
    simp only [FeedResult.mk.injEq]
    exact ⟨trivial, trivial, by omega⟩

theorem formRep_name (c : Nat) (rest : List Nat)
    (h61 : (c == 61) = false) (h38 : (c == 38) = false) (hctl : isControl c = false) :
    ∀ (n : Nat) (dict : List (List Nat × List Nat)) (qn qv : List Nat),
      qn.length + n ≤ QUERY_NAME_MAX →
      parseURLEncodedLoop .parseName dict qn qv (List.replicate n c ++ rest) =
        parseURLEncodedLoop .parseName dict (qn ++ List.replicate n c) qv rest := by
  intro n
  induction n with
  | zero =>
    intro dict qn qv hlen
    simp
  | succ n ih =>
    intro dict qn qv hlen
    have hlt : ¬ qn.length ≥ QUERY_NAME_MAX := by omega
    rw [List.replicate_succ, List.cons_append]
    simp only [parseURLEncodedLoop, h61, h38]
    rw [ih dict (qn ++ [c]) qv (by simp; omega)]
    have hmm : (qn ++ [c]) ++ List.replicate n c = qn ++ c :: List.replicate n c := by
      simp
    rw [hmm]
    simp [hctl, hlt]

theorem formRep_value (c : Nat) (rest : List Nat)
    (h38 : (c == 38) = false) (hctl : isControl c = false) :
    ∀ (n : Nat) (dict : List (List Nat × List Nat)) (qn qv : List Nat),
      qv.length + n ≤ QUERY_VALUE_MAX →
      parseURLEncodedLoop .parseValue dict qn qv (List.replicate n c ++ rest) =
        parseURLEncodedLoop .parseValue dict qn (qv ++ List.replicate n c) rest := by
  intro n
  induction n with
  | zero =>
    intro dict qn qv hlen
    simp
  | succ n ih =>
    intro dict qn qv hlen
    have hlt : ¬ qv.length ≥ QUERY_VALUE_MAX := by omega
    rw [List.replicate_succ, List.cons_append]
    simp only [parseURLEncodedLoop, h38]
    rw [ih dict qn (qv ++ [c]) (by simp; omega)]
    have hmm : (qv ++ [c]) ++ List.replicate n c = qv ++ c :: List.replicate n c := by
      simp
    rw [hmm]
    simp [hctl, hlt]

theorem feed_append_needMore_outcome (b a : List Nat) (s s' : ParserState) (n : Nat)
    (h : feed s a = ⟨.needMore, s', n⟩) :
    (feed s (a ++ b)).outcome = (feed s' b).outcome := by
  rw [feed_append_needMore b a s s' n h]

theorem feedRep_uriStem_outcome (c : Nat) (rest : List Nat)
    (h32 : (c == 32) = false) (h63 : (c == 63) = false) (hctl : isControl c = false)
    (n : Nat) (s : ParserState) (hps : s.parse_state = .uriStem)
    (hlen : s.m_resource.length + n ≤ RESOURCE_MAX) :
    (feed s (List.replicate n c ++ rest)).outcome =
      (feed { s with m_resource := s.m_resource ++ List.replicate n c } rest).outcome := by
  rw [feedRep_uriStem c rest h32 h63 hctl n s hps hlen]

theorem feedRep_uriQuery_outcome (c : Nat) (rest : List Nat)
    (h32 : (c == 32) = false) (hctl : isControl c = false)
    (n : Nat) (s : ParserState) (hps : s.parse_state = .uriQuery)
    (hlen : s.m_query_string.length + n ≤ QUERY_STRING_MAX) :
    (feed s (List.replicate n c ++ rest)).outcome =
      (feed { s with m_query_string := s.m_query_string ++ List.replicate n c } rest).outcome := by
  rw [feedRep_uriQuery c rest h32 hctl n s hps hlen]

theorem feedRep_headerName_outcome (c : Nat) (rest : List Nat)
    (hbad : (!isChar c || isControl c || isSpecial c) = false) (h58 : (c == 58) = false)
    (n : Nat) (s : ParserState) (hps : s.parse_state = .headerName)
    (hlen : s.m_header_name.length + n ≤ HEADER_NAME_MAX) :
    (feed s (List.replicate n c ++ rest)).outcome =
      (feed { s with m_header_name := s.m_header_name ++ List.replicate n c } rest).outcome := by
  rw [feedRep_headerName c rest hbad h58 n s hps hlen]

theorem feedRep_headerValue_outcome (c : Nat) (rest : List Nat)
    (h13 : (c == 13) = false) (h10 : (c == 10) = false) (hctl : isControl c = false)
    (n : Nat) (s : ParserState) (hps : s.parse_state = .headerValue)
    (hlen : s.m_header_value.length + n ≤ HEADER_VALUE_MAX) :
    (feed s (List.replicate n c ++ rest)).outcome =
      (feed { s with m_header_value := s.m_header_value ++ List.replicate n c } rest).outcome := by
  rw [feedRep_headerValue c rest h13 h10 hctl n s hps hlen]

/-! ## Concrete request-line and header suffixes around a big field -/

/-- " / HTTP/1.1 CR LF CR LF" -/
def methodSuffix : List Nat := [32,47,32,72,84,84,80,47,49,46,49,13,10,13,10]

theorem feedSuffix_method (s : ParserState) (hps : s.parse_state = .methodTok) :
    (feed s methodSuffix).outcome = .accept ∧
    (feed s methodSuffix).state.request.method = s.m_method := by
  obtain ⟨ps, mm, mr, mq, hn, hv, req⟩ := s
  simp only at hps
  subst hps
  simp [methodSuffix, feed, step, isChar, isControl, isSpecial, isDigit,
    setMethod, setResource, setVersionMajor, setVersionMinor,
    METHOD_MAX, RESOURCE_MAX, QUERY_STRING_MAX, HEADER_NAME_MAX, HEADER_VALUE_MAX]

/-- " HTTP/1.1 CR LF CR LF" -/
def stemSuffix : List Nat := [32,72,84,84,80,47,49,46,49,13,10,13,10]

theorem feedSuffix_uriStem (s : ParserState) (hps : s.parse_state = .uriStem) :
    (feed s stemSuffix).outcome = .accept ∧
    (feed s stemSuffix).state.request.resource = s.m_resource := by
  obtain ⟨ps, mm, mr, mq, hn, hv, req⟩ := s
  simp only at hps
  subst hps
  simp [stemSuffix, feed, step, isChar, isControl, isSpecial, isDigit,
    setMethod, setResource, setQueryString, setVersionMajor, setVersionMinor,
    METHOD_MAX, RESOURCE_MAX, QUERY_STRING_MAX, HEADER_NAME_MAX, HEADER_VALUE_MAX]

theorem feedSuffix_uriQuery (s : ParserState) (hps : s.parse_state = .uriQuery) :
    (feed s stemSuffix).outcome = .accept ∧
    (feed s stemSuffix).state.request.query_string = s.m_query_string := by
  obtain ⟨ps, mm, mr, mq, hn, hv, req⟩ := s
  simp only at hps
  subst hps
  simp [stemSuffix, feed, step, isChar, isControl, isSpecial, isDigit,
    setMethod, setResource, setQueryString, setVersionMajor, setVersionMinor,
    METHOD_MAX, RESOURCE_MAX, QUERY_STRING_MAX, HEADER_NAME_MAX, HEADER_VALUE_MAX]

/-- ": v CR LF CR LF" -/
def nameSuffix : List Nat := [58,32,118,13,10,13,10]

theorem feedSuffix_headerName (s : ParserState) (hps : s.parse_state = .headerName) :
    (feed s nameSuffix).outcome = .accept ∧
    (feed s nameSuffix).state.request.headers =
      s.request.headers ++ [(s.m_header_name, [118])] := by
  obtain ⟨ps, mm, mr, mq, hn, hv, req⟩ := s
  simp only at hps
  subst hps
  simp [nameSuffix, feed, step, isChar, isControl, isSpecial, isDigit, addHeader,
    METHOD_MAX, RESOURCE_MAX, QUERY_STRING_MAX, HEADER_NAME_MAX, HEADER_VALUE_MAX]

/-- "CR LF CR LF" -/
def valueSuffix : List Nat := [13,10,13,10]

theorem feedSuffix_headerValue (s : ParserState) (hps : s.parse_state = .headerValue) :
    (feed s valueSuffix).outcome = .accept ∧
    (feed s valueSuffix).state.request.headers =
      s.request.headers ++ [(s.m_header_name, s.m_header_value)] := by
  obtain ⟨ps, mm, mr, mq, hn, hv, req⟩ := s
  simp only at hps
  subst hps
  simp [valueSuffix, feed, step, addHeader]

/-! ## Ceiling boundary inputs (claim C4) -/

/-- A request line whose method consists of n+1 copies of 65 ('A'),
followed by " / HTTP/1.1" and the header terminator. -/
def methodInput (n : Nat) : List Nat := [65] ++ (List.replicate n 65 ++ methodSuffix)

theorem methodMax_accept :
    (feed initState (methodInput 1023)).outcome = .accept ∧
    (feed initState (methodInput 1023)).state.request.method = List.replicate 1024 65 := by
  have h0 : feed initState [65] =
      ⟨.needMore, { parse_state := .methodTok, m_method := [65] }, 1⟩ := by decide
  rw [methodInput, feed_append_needMore _ _ _ _ _ h0]
  rw [feedRep_method 65 methodSuffix (by decide) (by decide) 1023
      { parse_state := .methodTok, m_method := [65] } rfl (by simp [METHOD_MAX])]
  dsimp only
  have hrep : ([65] : List Nat) ++ List.replicate 1023 65 = List.replicate 1024 65 := by
    rw [List.singleton_append, ← List.replicate_succ]
  have hs := feedSuffix_method
      { parse_state := .methodTok, m_method := [65] ++ List.replicate 1023 65 } rfl
  exact ⟨hs.1, hs.2.trans hrep⟩

theorem methodMax_reject :
    (feed initState (methodInput 1024)).outcome = .reject := by
  have h0 : feed initState [65] =
      ⟨.needMore, { parse_state := .methodTok, m_method := [65] }, 1⟩ := by decide
  have hdec : List.replicate 1024 65 ++ methodSuffix =
      List.replicate 1023 65 ++ (65 :: methodSuffix) := by
    rw [show (1024 : Nat) = 1023 + 1 from rfl, List.replicate_succ', List.append_assoc,
      List.singleton_append]
  rw [methodInput, feed_append_needMore _ _ _ _ _ h0, hdec]
  rw [feedRep_method 65 (65 :: methodSuffix) (by decide) (by decide) 1023
      { parse_state := .methodTok, m_method := [65] } rfl (by simp [METHOD_MAX])]
  dsimp only
  have hstep : ∀ m : List Nat, m.length ≥ METHOD_MAX →
      step ({ parse_state := .methodTok, m_method := m } : ParserState) 65 =
        .reject { parse_state := .methodTok, m_method := m } := by
    intro m hm
    simp [step, isChar, isControl, isSpecial, hm]
  have hlen : (([65] : List Nat) ++ List.replicate 1023 65).length ≥ METHOD_MAX := by
    rw [List.length_append, List.length_replicate]
    decide
  simp only [feed, hstep _ hlen]

/-- "GET " then n copies of 97 ('a') as the URI stem, then " HTTP/1.1" and
the header terminator. -/
def resourceInput (n : Nat) : List Nat := [71,69,84,32] ++ (List.replicate n 97 ++ stemSuffix)

theorem resourceMax_accept :
    (feed initState (resourceInput 262144)).outcome = .accept ∧
    (feed initState (resourceInput 262144)).state.request.resource =
      List.replicate 262144 97 := by
  have h0 : feed initState [71,69,84,32] =
      ⟨.needMore, { parse_state := .uriStem, m_method := [71,69,84], request := { method := [71,69,84] } }, 4⟩ := by decide
  rw [resourceInput, feed_append_needMore _ _ _ _ _ h0]
  rw [feedRep_uriStem 97 stemSuffix (by decide) (by decide) (by decide) 262144
      { parse_state := .uriStem, m_method := [71,69,84], request := { method := [71,69,84] } }
      rfl (by simp [RESOURCE_MAX])]
  dsimp only
  refine ⟨(feedSuffix_uriStem _ rfl).1, (feedSuffix_uriStem _ rfl).2.trans ?_⟩
  exact List.nil_append _

theorem resourceMax_reject :
    (feed initState (resourceInput 262145)).outcome = .reject := by
  have h0 : feed initState [71,69,84,32] =
      ⟨.needMore, { parse_state := .uriStem, m_method := [71,69,84], request := { method := [71,69,84] } }, 4⟩ := by decide
  have hdec : List.replicate 262145 97 ++ stemSuffix =
      List.replicate 262144 97 ++ (97 :: stemSuffix) := by
    rw [show (262145 : Nat) = 262144 + 1 from rfl, List.replicate_succ', List.append_assoc,
      List.singleton_append]
  have hfeed : ∀ s' : ParserState, s'.parse_state = .uriStem →
      s'.m_resource.length ≥ RESOURCE_MAX → (feed s' (97 :: stemSuffix)).outcome = .reject := by
    intro s' h1 h2
    have hstep : step s' 97 = .reject s' := by
      simp [step, h1, isControl, h2]
    simp only [feed, hstep]
  rw [resourceInput, hdec, feed_append_needMore_outcome _ _ _ _ _ h0]
  rw [feedRep_uriStem_outcome 97 (97 :: stemSuffix) (by decide) (by decide) (by decide) 262144
      { parse_state := .uriStem, m_method := [71,69,84], request := { method := [71,69,84] } }
      rfl (by simp [RESOURCE_MAX])]
  have hlen2 : (([] : List Nat) ++ List.replicate 262144 97).length ≥ RESOURCE_MAX := by
    rw [List.length_append, List.length_replicate]
    decide
  exact hfeed _ rfl hlen2

/-- "GET /?" then n copies of 97 ('a') as the query string, then
" HTTP/1.1" and the header terminator. -/
def queryInput (n : Nat) : List Nat := [71,69,84,32,47,63] ++ (List.replicate n 97 ++ stemSuffix)

theorem queryMax_accept :
    (feed initState (queryInput 1048576)).outcome = .accept ∧
    (feed initState (queryInput 1048576)).state.request.query_string =
      List.replicate 1048576 97 := by
  have h0 : feed initState [71,69,84,32,47,63] =
      ⟨.needMore, { parse_state := .uriQuery, m_method := [71,69,84], m_resource := [47], request := { method := [71,69,84], resource := [47] } }, 6⟩ := by decide
  rw [queryInput, feed_append_needMore _ _ _ _ _ h0]
  rw [feedRep_uriQuery 97 stemSuffix (by decide) (by decide) 1048576
      { parse_state := .uriQuery, m_method := [71,69,84], m_resource := [47], request := { method := [71,69,84], resource := [47] } }
      rfl (by simp [QUERY_STRING_MAX])]
  dsimp only
  refine ⟨(feedSuffix_uriQuery _ rfl).1, (feedSuffix_uriQuery _ rfl).2.trans ?_⟩
  exact List.nil_append _

theorem queryMax_reject :
    (feed initState (queryInput 1048577)).outcome = .reject := by
  have h0 : feed initState [71,69,84,32,47,63] =
      ⟨.needMore, { parse_state := .uriQuery, m_method := [71,69,84], m_resource := [47], request := { method := [71,69,84], resource := [47] } }, 6⟩ := by decide
  have hdec : List.replicate 1048577 97 ++ stemSuffix =
      List.replicate 1048576 97 ++ (97 :: stemSuffix) := by
    rw [show (1048577 : Nat) = 1048576 + 1 from rfl, List.replicate_succ', List.append_assoc,
      List.singleton_append]
  have hfeed : ∀ s' : ParserState, s'.parse_state = .uriQuery →
      s'.m_query_string.length ≥ QUERY_STRING_MAX →
      (feed s' (97 :: stemSuffix)).outcome = .reject := by
    intro s' h1 h2
    have hstep : step s' 97 = .reject s' := by
      simp [step, h1, isControl, h2]
    simp only [feed, hstep]
  rw [queryInput, hdec, feed_append_needMore_outcome _ _ _ _ _ h0]
  rw [feedRep_uriQuery_outcome 97 (97 :: stemSuffix) (by decide) (by decide) 1048576
      { parse_state := .uriQuery, m_method := [71,69,84], m_resource := [47], request := { method := [71,69,84], resource := [47] } }
      rfl (by simp [QUERY_STRING_MAX])]
  have hlen2 : (([] : List Nat) ++ List.replicate 1048576 97).length ≥ QUERY_STRING_MAX := by
    rw [List.length_append, List.length_replicate]
    decide
  exact hfeed _ rfl hlen2

/-- "GET / HTTP/1.1", CRLF, then a header whose name is n+1 copies of
104 ('h') followed by ": v" and the terminator. -/
def headerNameInput (n : Nat) : List Nat :=
  [71,69,84,32,47,32,72,84,84,80,47,49,46,49,13,10,104] ++
    (List.replicate n 104 ++ nameSuffix)

theorem headerNameMax_accept :
    (feed initState (headerNameInput 1023)).outcome = .accept ∧
    (feed initState (headerNameInput 1023)).state.request.headers =
      [(List.replicate 1024 104, [118])] := by
  have h0 : feed initState [71,69,84,32,47,32,72,84,84,80,47,49,46,49,13,10,104] =
      ⟨.needMore, { parse_state := .headerName, m_method := [71,69,84], m_resource := [47], m_header_name := [104], request := { method := [71,69,84], resource := [47], version_major := 1, version_minor := 1 } }, 17⟩ := by decide
  rw [headerNameInput, feed_append_needMore _ _ _ _ _ h0]
  rw [feedRep_headerName 104 nameSuffix (by decide) (by decide) 1023
      { parse_state := .headerName, m_method := [71,69,84], m_resource := [47], m_header_name := [104], request := { method := [71,69,84], resource := [47], version_major := 1, version_minor := 1 } }
      rfl (by simp [HEADER_NAME_MAX])]
  dsimp only
  have hrep : ([104] : List Nat) ++ List.replicate 1023 104 = List.replicate 1024 104 := by
    rw [List.singleton_append, ← List.replicate_succ]
  refine ⟨(feedSuffix_headerName _ rfl).1, (feedSuffix_headerName _ rfl).2.trans ?_⟩
  show ([] : List (List Nat × List Nat)) ++
      [((([104] : List Nat) ++ List.replicate 1023 104), [118])] =
    [(List.replicate 1024 104, [118])]
  rw [List.nil_append, hrep]

theorem headerNameMax_reject :
    (feed initState (headerNameInput 1024)).outcome = .reject := by
  have h0 : feed initState [71,69,84,32,47,32,72,84,84,80,47,49,46,49,13,10,104] =
      ⟨.needMore, { parse_state := .headerName, m_method := [71,69,84], m_resource := [47], m_header_name := [104], request := { method := [71,69,84], resource := [47], version_major := 1, version_minor := 1 } }, 17⟩ := by decide
  have hdec : List.replicate 1024 104 ++ nameSuffix =
      List.replicate 1023 104 ++ (104 :: nameSuffix) := by
    rw [show (1024 : Nat) = 1023 + 1 from rfl, List.replicate_succ', List.append_assoc,
      List.singleton_append]
  have hfeed : ∀ s' : ParserState, s'.parse_state = .headerName →
      s'.m_header_name.length ≥ HEADER_NAME_MAX →
      (feed s' (104 :: nameSuffix)).outcome = .reject := by
    intro s' h1 h2
    have hstep : step s' 104 = .reject s' := by
      simp [step, h1, isChar, isControl, isSpecial, h2]
    simp only [feed, hstep]
  rw [headerNameInput, hdec, feed_append_needMore_outcome _ _ _ _ _ h0]
  rw [feedRep_headerName_outcome 104 (104 :: nameSuffix) (by decide) (by decide) 1023
      { parse_state := .headerName, m_method := [71,69,84], m_resource := [47], m_header_name := [104], request := { method := [71,69,84], resource := [47], version_major := 1, version_minor := 1 } }
      rfl (by simp [HEADER_NAME_MAX])]
  have hlen2 : (([104] : List Nat) ++ List.replicate 1023 104).length ≥ HEADER_NAME_MAX := by
    rw [List.length_append, List.length_replicate]
    decide
  exact hfeed _ rfl hlen2

/-- "GET / HTTP/1.1", CRLF, then the header "h: " whose value is n copies
of 118 ('v'), then the terminator. -/
def headerValueInput (n : Nat) : List Nat :=
  [71,69,84,32,47,32,72,84,84,80,47,49,46,49,13,10,104,58,32] ++
    (List.replicate n 118 ++ valueSuffix)

theorem headerValueMax_accept :
    (feed initState (headerValueInput 1048576)).outcome = .accept ∧
    (feed initState (headerValueInput 1048576)).state.request.headers =
      [(([104] : List Nat), List.replicate 1048576 118)] := by
  have h0 : feed initState [71,69,84,32,47,32,72,84,84,80,47,49,46,49,13,10,104,58,32] =
      ⟨.needMore, { parse_state := .headerValue, m_method := [71,69,84], m_resource := [47], m_header_name := [104], request := { method := [71,69,84], resource := [47], version_major := 1, version_minor := 1 } }, 19⟩ := by decide
  rw [headerValueInput, feed_append_needMore _ _ _ _ _ h0]
  rw [feedRep_headerValue 118 valueSuffix (by decide) (by decide) (by decide) 1048576
      { parse_state := .headerValue, m_method := [71,69,84], m_resource := [47], m_header_name := [104], request := { method := [71,69,84], resource := [47], version_major := 1, version_minor := 1 } }
      rfl (by simp [HEADER_VALUE_MAX])]
  dsimp only
  refine ⟨(feedSuffix_headerValue _ rfl).1, (feedSuffix_headerValue _ rfl).2.trans ?_⟩
  show ([] : List (List Nat × List Nat)) ++
      [(([104] : List Nat), ([] : List Nat) ++ List.replicate 1048576 118)] =
    [(([104] : List Nat), List.replicate 1048576 118)]
  simp only [List.nil_append]

theorem headerValueMax_reject :
    (feed initState (headerValueInput 1048577)).outcome = .reject := by
  have h0 : feed initState [71,69,84,32,47,32,72,84,84,80,47,49,46,49,13,10,104,58,32] =
      ⟨.needMore, { parse_state := .headerValue, m_method := [71,69,84], m_resource := [47], m_header_name := [104], request := { method := [71,69,84], resource := [47], version_major := 1, version_minor := 1 } }, 19⟩ := by decide
  have hdec : List.replicate 1048577 118 ++ valueSuffix =
      List.replicate 1048576 118 ++ (118 :: valueSuffix) := by
    rw [show (1048577 : Nat) = 1048576 + 1 from rfl, List.replicate_succ', List.append_assoc,
      List.singleton_append]
  have hfeed : ∀ s' : ParserState, s'.parse_state = .headerValue →
      s'.m_header_value.length ≥ HEADER_VALUE_MAX →
      (feed s' (118 :: valueSuffix)).outcome = .reject := by
    intro s' h1 h2
    have hstep : step s' 118 = .reject s' := by
      simp [step, h1, isControl, h2]
    simp only [feed, hstep]
  rw [headerValueInput, hdec, feed_append_needMore_outcome _ _ _ _ _ h0]
  rw [feedRep_headerValue_outcome 118 (118 :: valueSuffix) (by decide) (by decide) (by decide)
      1048576
      { parse_state := .headerValue, m_method := [71,69,84], m_resource := [47], m_header_name := [104], request := { method := [71,69,84], resource := [47], version_major := 1, version_minor := 1 } }
      rfl (by simp [HEADER_VALUE_MAX])]
  have hlen2 : (([] : List Nat) ++ List.replicate 1048576 118).length ≥ HEADER_VALUE_MAX := by
    rw [List.length_append, List.length_replicate]
    decide
  exact hfeed _ rfl hlen2

/-- n copies of 97 ('a') as a form-parameter name, then "=v". -/
def formNameInput (n : Nat) : List Nat := List.replicate n 97 ++ [61,118]

theorem formNameMax_accept :
    (parseURLEncoded [] (formNameInput 1024)).1 = true ∧
    (parseURLEncoded [] (formNameInput 1024)).2 = [(List.replicate 1024 97, [118])] := by
  have hloop : ∀ qn : List Nat, qn ≠ [] →
      parseURLEncodedLoop .parseName [] qn [] [61,118] = (true, [(qn, [118])]) := by
    intro qn h
    simp [parseURLEncodedLoop, h, isControl, QUERY_VALUE_MAX]
  have hne : List.replicate 1024 97 ≠ ([] : List Nat) := by
    rw [show (1024 : Nat) = 1023 + 1 from rfl, List.replicate_succ]
    exact List.cons_ne_nil _ _
  rw [parseURLEncoded, formNameInput]
  rw [formRep_name 97 [61,118] (by decide) (by decide) (by decide) 1024 [] [] []
      (by simp [QUERY_NAME_MAX])]
  rw [List.nil_append, hloop (List.replicate 1024 97) hne]
  exact ⟨rfl, rfl⟩

theorem formNameMax_reject :
    (parseURLEncoded [] (formNameInput 1025)).1 = false := by
  have hdec : List.replicate 1025 97 ++ [61,118] =
      List.replicate 1024 97 ++ (97 :: [61,118]) := by
    rw [show (1025 : Nat) = 1024 + 1 from rfl, List.replicate_succ', List.append_assoc,
      List.singleton_append]
  have hloop : ∀ qn : List Nat, qn.length ≥ QUERY_NAME_MAX →
      (parseURLEncodedLoop .parseName [] qn [] (97 :: [61,118])).1 = false := by
    intro qn h
    simp [parseURLEncodedLoop, h, isControl]
  rw [parseURLEncoded, formNameInput, hdec]
  rw [formRep_name 97 (97 :: [61,118]) (by decide) (by decide) (by decide) 1024 [] [] []
      (by simp [QUERY_NAME_MAX])]
  rw [List.nil_append]
  exact hloop _ (by rw [List.length_replicate]; decide)

/-- "n=" then n copies of 118 ('v') as the form-parameter value. -/
def formValueInput (n : Nat) : List Nat := [110,61] ++ List.replicate n 118

theorem formValueMax_accept :
    (parseURLEncoded [] (formValueInput 1048576)).1 = true ∧
    (parseURLEncoded [] (formValueInput 1048576)).2 =
      [(([110] : List Nat), List.replicate 1048576 118)] := by
  have h2 : ∀ X : List Nat, parseURLEncodedLoop .parseName [] [] [] (110 :: 61 :: X) =
      parseURLEncodedLoop .parseValue [] [110] [] X := by
    intro X
    simp [parseURLEncodedLoop, isControl, QUERY_NAME_MAX]
  have hend : ∀ qv : List Nat,
      parseURLEncodedLoop .parseValue [] [110] qv [] = (true, [(([110] : List Nat), qv)]) := by
    intro qv
    simp [parseURLEncodedLoop]
  have hrep0 : ∀ (n : Nat) (dict : List (List Nat × List Nat)) (qn qv : List Nat),
      qv.length + n ≤ QUERY_VALUE_MAX →
      parseURLEncodedLoop .parseValue dict qn qv (List.replicate n 118) =
        parseURLEncodedLoop .parseValue dict qn (qv ++ List.replicate n 118) [] := by
    intro n dict qn qv h
    have hfv := formRep_value 118 [] (by decide) (by decide) n dict qn qv h
    rwa [List.append_nil] at hfv
  rw [parseURLEncoded, formValueInput]
  rw [show ([110,61] : List Nat) ++ List.replicate 1048576 118 =
      110 :: 61 :: List.replicate 1048576 118 from rfl]
  rw [h2]
  rw [hrep0 1048576 [] [110] [] (by simp [QUERY_VALUE_MAX])]
  rw [hend]
  constructor
  · rfl
  · show [(([110] : List Nat), ([] : List Nat) ++ List.replicate 1048576 118)] =
      [(([110] : List Nat), List.replicate 1048576 118)]
    simp only [List.nil_append]

theorem formValueMax_reject :
    (parseURLEncoded [] (formValueInput 1048577)).1 = false := by
  have h2 : ∀ X : List Nat, parseURLEncodedLoop .parseName [] [] [] (110 :: 61 :: X) =
      parseURLEncodedLoop .parseValue [] [110] [] X := by
    intro X
    simp [parseURLEncodedLoop, isControl, QUERY_NAME_MAX]
  have hloop : ∀ qv : List Nat, qv.length ≥ QUERY_VALUE_MAX →
      (parseURLEncodedLoop .parseValue [] [110] qv [118]).1 = false := by
    intro qv h
    simp [parseURLEncodedLoop, h, isControl]
  rw [parseURLEncoded, formValueInput]
  rw [show ([110,61] : List Nat) ++ List.replicate 1048577 118 =
      110 :: 61 :: List.replicate 1048577 118 from rfl]
  rw [h2]
  rw [show List.replicate 1048577 118 = List.replicate 1048576 118 ++ [118] from by
    rw [show (1048577 : Nat) = 1048576 + 1 from rfl, List.replicate_succ']]
  rw [formRep_value 118 [118] (by decide) (by decide) 1048576 [] [110] []
      (by simp [QUERY_VALUE_MAX])]
  exact hloop _ (by rw [List.nil_append, List.length_replicate]; decide)

/-! ## Claim C4 -/

/-- C4: for every parsed field with ceiling C (method 1,024; resource
262,144; query string 1,048,576; header name 1,024; header value 1,048,576;
form-param name 1,024; form-param value 1,048,576), an otherwise
well-formed input in which that field is exactly C octets long is accepted
(and commits exactly the C-octet field), while the same input with the
field C + 1 octets long is rejected.  `methodInput n` and
`headerNameInput n` carry a field of n + 1 octets; the other inputs carry a
field of n octets. -/
theorem fieldCeilings_boundary :
    ((feed initState (methodInput 1023)).outcome = .accept ∧
      (feed initState (methodInput 1023)).state.request.method =
        List.replicate 1024 65) ∧
    (feed initState (methodInput 1024)).outcome = .reject ∧
    ((feed initState (resourceInput 262144)).outcome = .accept ∧
      (feed initState (resourceInput 262144)).state.request.resource =
        List.replicate 262144 97) ∧
    (feed initState (resourceInput 262145)).outcome = .reject ∧
    ((feed initState (queryInput 1048576)).outcome = .accept ∧
      (feed initState (queryInput 1048576)).state.request.query_string =
        List.replicate 1048576 97) ∧
    (feed initState (queryInput 1048577)).outcome = .reject ∧
    ((feed initState (headerNameInput 1023)).outcome = .accept ∧
      (feed initState (headerNameInput 1023)).state.request.headers =
        [(List.replicate 1024 104, [118])]) ∧
    (feed initState (headerNameInput 1024)).outcome = .reject ∧
    ((feed initState (headerValueInput 1048576)).outcome = .accept ∧
      (feed initState (headerValueInput 1048576)).state.request.headers =
        [(([104] : List Nat), List.replicate 1048576 118)]) ∧
    (feed initState (headerValueInput 1048577)).outcome = .reject ∧
    ((parseURLEncoded [] (formNameInput 1024)).1 = true ∧
      (parseURLEncoded [] (formNameInput 1024)).2 =
        [(List.replicate 1024 97, [118])]) ∧
    (parseURLEncoded [] (formNameInput 1025)).1 = false ∧
    ((parseURLEncoded [] (formValueInput 1048576)).1 = true ∧
      (parseURLEncoded [] (formValueInput 1048576)).2 =
        [(([110] : List Nat), List.replicate 1048576 118)]) ∧
    (parseURLEncoded [] (formValueInput 1048577)).1 = false :=
  ⟨methodMax_accept, methodMax_reject, resourceMax_accept, resourceMax_reject,
   queryMax_accept, queryMax_reject, headerNameMax_accept, headerNameMax_reject,
   headerValueMax_accept, headerValueMax_reject, formNameMax_accept, formNameMax_reject,
   formValueMax_accept, formValueMax_reject⟩

/-! ## Claim C5: round trip of the canonical form encoding -/

/-- The canonical '&'-separated "name=value" encoding of a pair list. -/
def encodePairs : List (List Nat × List Nat) → List Nat
  | [] => []
  | [p] => p.1 ++ 61 :: p.2
  | p :: q :: rest => p.1 ++ 61 :: (p.2 ++ 38 :: encodePairs (q :: rest))

/-- An octet that is not '=', not '&', and not a control byte. -/
def okByte (c : Nat) : Bool := !(c == 61) && !(c == 38) && !isControl c

theorem okByte_not61 {c : Nat} (h : okByte c = true) : (c == 61) = false := by
  simp [okByte] at h
  simp [h.1.1]

theorem okByte_not38 {c : Nat} (h : okByte c = true) : (c == 38) = false := by
  simp [okByte] at h
  simp [h.1.2]

theorem okByte_notControl {c : Nat} (h : okByte c = true) : isControl c = false := by
  simp [okByte] at h
  exact h.2

/-- Scanning a run of ok octets in the Name substate appends them to the
scratch name. -/
theorem scanName : ∀ (n : List Nat) (dict : List (List Nat × List Nat))
    (qn qv tail : List Nat), (∀ c ∈ n, okByte c = true) →
    qn.length + n.length ≤ QUERY_NAME_MAX →
    parseURLEncodedLoop .parseName dict qn qv (n ++ tail) =
      parseURLEncodedLoop .parseName dict (qn ++ n) qv tail := by
  intro n
  induction n with
  | nil =>
    intro dict qn qv tail _ _
    simp
  | cons c t ih =>
    intro dict qn qv tail hok hlen
    have hc := hok c (List.mem_cons_self c t)
    have hlt : ¬ qn.length ≥ QUERY_NAME_MAX := by
      simp only [List.length_cons] at hlen
      omega
    rw [List.cons_append]
    simp only [parseURLEncodedLoop, okByte_not61 hc, okByte_not38 hc]
    rw [ih dict (qn ++ [c]) qv tail
      (fun x hx => hok x (List.mem_cons_of_mem c hx))
      (by simp only [List.length_append, List.length_cons, List.length_nil] at hlen ⊢; omega)]
    rw [List.append_cons qn c t]
    simp [okByte_notControl hc, hlt]

/-- Scanning a run of ok octets in the Value substate appends them to the
scratch value. -/
theorem scanValue : ∀ (v : List Nat) (dict : List (List Nat × List Nat))
    (qn qv tail : List Nat), (∀ c ∈ v, okByte c = true) →
    qv.length + v.length ≤ QUERY_VALUE_MAX →
    parseURLEncodedLoop .parseValue dict qn qv (v ++ tail) =
      parseURLEncodedLoop .parseValue dict qn (qv ++ v) tail := by
  intro v
  induction v with
  | nil =>
    intro dict qn qv tail _ _
    simp
  | cons c t ih =>
    intro dict qn qv tail hok hlen
    have hc := hok c (List.mem_cons_self c t)
    have hlt : ¬ qv.length ≥ QUERY_VALUE_MAX := by
      simp only [List.length_cons] at hlen
      omega
    rw [List.cons_append]
    simp only [parseURLEncodedLoop, okByte_not38 hc]
    rw [ih dict qn (qv ++ [c]) tail
      (fun x hx => hok x (List.mem_cons_of_mem c hx))
      (by simp only [List.length_append, List.length_cons, List.length_nil] at hlen ⊢; omega)]
    rw [List.append_cons qv c t]
    simp [okByte_notControl hc, hlt]

/-- The round trip generalized over the pre-existing dictionary. -/
theorem roundTripAux : ∀ (pairs : List (List Nat × List Nat))
    (dict : List (List Nat × List Nat)),
    (∀ p ∈ pairs, p.1 ≠ [] ∧ (∀ c ∈ p.1, okByte c = true) ∧ (∀ c ∈ p.2, okByte c = true) ∧
      p.1.length ≤ QUERY_NAME_MAX ∧ p.2.length ≤ QUERY_VALUE_MAX) →
    parseURLEncodedLoop .parseName dict [] [] (encodePairs pairs) = (true, dict ++ pairs) := by
  intro pairs
  induction pairs with
  | nil =>
    intro dict _
    simp [encodePairs, parseURLEncodedLoop]
  | cons p rest ih =>
    intro dict hok
    obtain ⟨hne, hnok, hvok, hnlen, hvlen⟩ := hok p (List.mem_cons_self p rest)
    cases rest with
    | nil =>
      simp only [encodePairs]
      rw [scanName p.1 dict [] [] (61 :: p.2) hnok (by simpa using hnlen), List.nil_append]
      have h61 : parseURLEncodedLoop .parseName dict p.1 [] (61 :: p.2) =
          parseURLEncodedLoop .parseValue dict p.1 [] p.2 := by
        simp [parseURLEncodedLoop, hne]
      rw [h61]
      have hv0 : parseURLEncodedLoop .parseValue dict p.1 [] p.2 =
          parseURLEncodedLoop .parseValue dict p.1 ([] ++ p.2) [] := by
        have hsv := scanValue p.2 dict p.1 [] [] hvok (by simpa using hvlen)
        rwa [List.append_nil] at hsv
      rw [hv0, List.nil_append]
      simp [parseURLEncodedLoop, hne]
    | cons q rest' =>
      simp only [encodePairs]
      rw [scanName p.1 dict [] [] (61 :: (p.2 ++ 38 :: encodePairs (q :: rest'))) hnok
        (by simpa using hnlen), List.nil_append]
      have h61 : parseURLEncodedLoop .parseName dict p.1 []
          (61 :: (p.2 ++ 38 :: encodePairs (q :: rest'))) =
          parseURLEncodedLoop .parseValue dict p.1 []
            (p.2 ++ 38 :: encodePairs (q :: rest')) := by
        simp [parseURLEncodedLoop, hne]
      rw [h61]
      rw [scanValue p.2 dict p.1 [] (38 :: encodePairs (q :: rest')) hvok
        (by simpa using hvlen), List.nil_append]
      have h38 : parseURLEncodedLoop .parseValue dict p.1 p.2
          (38 :: encodePairs (q :: rest')) =
          parseURLEncodedLoop .parseName (dict ++ [(p.1, p.2)]) [] []
            (encodePairs (q :: rest')) := by
        simp [parseURLEncodedLoop]
      rw [h38]
      rw [ih (dict ++ [(p.1, p.2)]) (fun x hx => hok x (List.mem_cons_of_mem p hx))]
      rw [List.append_assoc]
      rfl

/-- C5 counterexample: the single pair whose name is 1,025 copies of 97
('a') and whose value is empty satisfies the claim's conditions (non-empty
name; octets neither '=' nor '&' nor control), yet the FormDecoder rejects
its canonical encoding because of the 1,024-octet form-name ceiling. -/
theorem formDecoder_roundTrip_counterexample :
    (List.replicate 1025 97 ≠ ([] : List Nat) ∧
      (∀ c ∈ List.replicate 1025 97, okByte c = true) ∧
      (∀ c ∈ ([] : List Nat), okByte c = true)) ∧
    (parseURLEncoded [] (encodePairs [(List.replicate 1025 97, [])])).1 = false := by
  constructor
  · refine ⟨?_, ?_, ?_⟩
    · rw [show (1025 : Nat) = 1024 + 1 from rfl, List.replicate_succ]
      exact List.cons_ne_nil _ _
    · intro c hc
      rw [List.eq_of_mem_replicate hc]
      decide
    · intro c hc
      exact absurd hc (List.not_mem_nil c)
  · have henc : encodePairs [(List.replicate 1025 97, [])] =
        List.replicate 1025 97 ++ [61] := rfl
    have hdec : List.replicate 1025 97 ++ [61] =
        List.replicate 1024 97 ++ (97 :: [61]) := by
      rw [show (1025 : Nat) = 1024 + 1 from rfl, List.replicate_succ', List.append_assoc,
        List.singleton_append]
    have hloop : ∀ qn : List Nat, qn.length ≥ QUERY_NAME_MAX →
        (parseURLEncodedLoop .parseName [] qn [] (97 :: [61])).1 = false := by
      intro qn h
      simp [parseURLEncodedLoop, h, isControl]
    rw [parseURLEncoded, henc, hdec]
    rw [formRep_name 97 (97 :: [61]) (by decide) (by decide) (by decide) 1024 [] [] []
        (by simp [QUERY_NAME_MAX])]
    rw [List.nil_append]
    exact hloop _ (by rw [List.length_replicate]; decide)

/-- C5 amended: for every list of (name, value) pairs with non-empty names,
octets that are not '=', '&', and not control bytes, and within the
decoder's ceilings (name at most 1,024 octets, value at most 1,048,576
octets), running the FormDecoder on the canonical '&'-separated
"name=value" encoding succeeds and produces exactly those pairs. -/
theorem formDecoder_roundTrip (pairs : List (List Nat × List Nat))
    (hok : ∀ p ∈ pairs, p.1 ≠ [] ∧ (∀ c ∈ p.1, okByte c = true) ∧
      (∀ c ∈ p.2, okByte c = true) ∧
      p.1.length ≤ QUERY_NAME_MAX ∧ p.2.length ≤ QUERY_VALUE_MAX) :
    parseURLEncoded [] (encodePairs pairs) = (true, pairs) := by
  rw [parseURLEncoded, roundTripAux pairs [] hok, List.nil_append]

/-- Witness for C5 at the pair list [(k, v), (x, y)], encoded "k=v&x=y". -/
theorem formDecoder_roundTrip_witness :
    parseURLEncoded [] (encodePairs [(([107] : List Nat), ([118] : List Nat)), ([120],[121])]) =
      (true, [(([107] : List Nat), ([118] : List Nat)), ([120],[121])]) :=
  formDecoder_roundTrip [([107],[118]), ([120],[121])] (by decide)

end Pion
